import Mathlib

/-!
Verification of the batsim4 simulation core against its design document.

The definitions below are shallow embeddings of functions of
`src/batsim.cpp` and `src/workload.cpp`.  C `double` arithmetic is
modelled by `ℚ` where the code only adds, multiplies, divides and takes
`floor`/`fmod`, and by `ℝ` where the code calls `sqrt`.  A C
`xbt_assert` failure (which aborts the process) is modelled by `none`
in an `Option` result.
-/

namespace Batsim

/-- Truncation toward zero, as C `trunc` on a finite value. -/
def qtrunc (q : ℚ) : ℤ :=
  if 0 ≤ q then ⌊q⌋ else ⌈q⌉

/-- C `fmod x y = x - trunc (x / y) * y` (for finite, nonzero `y`). -/
def qfmod (x y : ℚ) : ℚ :=
  x - (qtrunc (x / y) : ℚ) * y

/-- Embedding of the delay-profile checkpoint rewrite of `Job::from_json`
(`src/batsim.cpp`, lines 2436-2455).  Arguments are the profile fields
`delay` and `original_delay` and the job fields `checkpoint_interval` and
`dump_time`; the result is the value stored back into `data->delay`.
The code runs only when `original_delay == -1.0`; it computes
`subtract = 1` when `fmod(delay, interval) == 0`, and when
`floor(delay / interval) > 0` it sets
`delay = (floor(delay / interval) - subtract) * dump_time + delay`. -/
def delay_rewrite (delay interval dump original_delay : ℚ) : ℚ :=
  if original_delay = -1 then
    let subtract : ℚ := if qfmod delay interval = 0 then 1 else 0
    if 0 < ⌊delay / interval⌋ then
      ((⌊delay / interval⌋ : ℚ) - subtract) * dump + delay
    else
      delay
  else
    delay

example : delay_rewrite 9 3 1 (-1) = 11 := by
  norm_num [delay_rewrite, qfmod, qtrunc]
example : delay_rewrite 2 3 1 (-1) = 2 := by
  norm_num [delay_rewrite, qfmod, qtrunc]
example : delay_rewrite 10 3 1 5 = 10 := by
  norm_num [delay_rewrite, qfmod, qtrunc]

end Batsim

namespace Batsim

/-- C1, counterexample: the code rewrites a fresh delay profile with
`real_work = 10`, `checkpoint_interval = 3`, `dump_time = 1` to an
effective work of `13`, not the `ceil(10/3) * 1 + 10 = 14` the claim
states (the division is not exact, so no dump is skipped under the
claimed formula). -/
theorem delay_rewrite_ten_three_one :
    delay_rewrite 10 3 1 (-1) = 13 ∧
      (13 : ℚ) ≠ (⌈(10 : ℚ) / 3⌉ : ℚ) * 1 + 10 := by
  constructor
  · norm_num [delay_rewrite, qfmod, qtrunc]
  · rw [show ⌈(10 : ℚ) / 3⌉ = 4 from by rw [Int.ceil_eq_iff]; norm_num]
    norm_num

/-- C1, amended: for every delay job loaded with checkpointing on and no
prior `original_delay`, with positive work and positive checkpoint
interval, the rewritten profile delay equals
`real_work + (ceil(real_work / checkpoint_interval) - 1) * dump_time`,
i.e. `floor(real_work / checkpoint_interval)` dumps with one dump
skipped when the division is exact; at `10/3/1` this is `13`. -/
theorem delay_rewrite_eq_ceil_sub_one (delay interval dump : ℚ)
    (hd : 0 < delay) (hi : 0 < interval) :
    delay_rewrite delay interval dump (-1)
      = delay + ((⌈delay / interval⌉ : ℚ) - 1) * dump := by
  have hq : 0 < delay / interval := div_pos hd hi
  have htr : qtrunc (delay / interval) = ⌊delay / interval⌋ := if_pos hq.le
  have hkey : qfmod delay interval
      = (delay / interval - (⌊delay / interval⌋ : ℚ)) * interval := by
    rw [qfmod, htr, sub_mul, div_mul_cancel₀ _ hi.ne']
  rw [delay_rewrite, if_pos rfl]
  by_cases hdvd : qfmod delay interval = 0
  · -- exact division: the quotient is the integer floor
    have hqe : delay / interval = (⌊delay / interval⌋ : ℚ) := by
      have h0 : (delay / interval - (⌊delay / interval⌋ : ℚ)) * interval = 0 :=
        hkey ▸ hdvd
      rcases mul_eq_zero.mp h0 with h | h
      · linarith [sub_eq_zero.mp h]
      · exact absurd h hi.ne'
    have hceil : ⌈delay / interval⌉ = ⌊delay / interval⌋ := by
      rw [hqe]
      simp
    have hfl : 0 < ⌊delay / interval⌋ := by
      have : (0 : ℚ) < (⌊delay / interval⌋ : ℚ) := hqe ▸ hq
      exact_mod_cast this
    rw [if_pos hdvd, if_pos hfl, hceil]
    ring
  · -- inexact division: the ceiling is the floor plus one
    have hne : delay / interval ≠ (⌊delay / interval⌋ : ℚ) := by
      intro h
      apply hdvd
      rw [hkey, h]
      simp
    have hceil : ⌈delay / interval⌉ = ⌊delay / interval⌋ + 1 := by
      rw [Int.ceil_eq_iff]
      constructor
      · push_cast
        have hle := Int.floor_le (delay / interval)
        have hlt : (⌊delay / interval⌋ : ℚ) < delay / interval :=
          lt_of_le_of_ne hle (fun h => hne h.symm)
        linarith
      · push_cast
        exact (Int.lt_floor_add_one (delay / interval)).le
    rw [if_neg hdvd]
    by_cases hfl : 0 < ⌊delay / interval⌋
    · rw [if_pos hfl, hceil]
      push_cast
      ring
    · have hfz : ⌊delay / interval⌋ = 0 :=
        le_antisymm (not_lt.mp hfl) (Int.floor_nonneg.mpr hq.le)
      rw [if_neg hfl, hceil, hfz]
      norm_num

/-- C1, witness: the amended formula evaluated at the spec's example
`real_work = 10`, `checkpoint_interval = 3`, `dump_time = 1`. -/
theorem delay_rewrite_eq_ceil_sub_one_witness :
    delay_rewrite 10 3 1 (-1) = 10 + ((⌈(10 : ℚ) / 3⌉ : ℚ) - 1) * 1 :=
  delay_rewrite_eq_ceil_sub_one 10 3 1 (by norm_num) (by norm_num)

end Batsim

namespace Batsim

/-- One scheduler-reply event, as checked by
`JsonProtocolReader::parse_and_apply_event` (`src/workload.cpp`, lines
2533-2558).  `timestamp` is the event timestamp; the four booleans
stand for the structural checks the parser asserts: the event is a JSON
object, its `timestamp` member exists and is a number, its `type` is a
string found in the handler map, and it has a `data` member. -/
structure PEvent where
  timestamp : ℚ
  is_object : Bool
  timestamp_is_number : Bool
  type_known : Bool
  has_data : Bool
deriving DecidableEq

/-- A fully well-formed event with the given timestamp. -/
def pevent (t : ℚ) : PEvent :=
  ⟨t, true, true, true, true⟩

/-- All the `xbt_assert` checks of `parse_and_apply_event` on one event:
the structural checks plus `timestamp <= now`.  There is no check
against the timestamps of the other events of the reply. -/
def event_checks (now : ℚ) (e : PEvent) : Bool :=
  e.is_object && e.timestamp_is_number && decide (e.timestamp ≤ now)
    && e.type_known && e.has_data

/-- The event loop of `JsonProtocolReader::parse_and_apply_message`
(`src/workload.cpp`, lines 2524-2528): events are processed in order and
the first failing `xbt_assert` aborts the simulation (`none`). -/
def parse_events (now : ℚ) : List PEvent → Option Unit
  | [] => some ()
  | e :: rest => if event_checks now e then parse_events now rest else none

/-- Embedding of `JsonProtocolReader::parse_and_apply_message`
(`src/workload.cpp`, lines 2508-2531): parse every event of the reply;
on success a `SCHED_READY` message carrying `now` is sent to the server
(modelled by `some now`); an assertion failure aborts (`none`). -/
def parse_and_apply_message (now : ℚ) (events : List PEvent) : Option ℚ :=
  (parse_events now events).map (fun _ => now)

/-- C2, counterexample: a scheduler reply with event timestamps `[5, 3]`
(out of order among themselves) at `now = 10` is accepted: parsing does
not abort, and the round trip continues with `SCHED_READY` sent at
`now`, contrary to the claimed protocol-violation abort. -/
theorem parse_out_of_order_accepted :
    parse_and_apply_message 10 [pevent 5, pevent 3] = some 10 ∧
      (pevent 5).timestamp > (pevent 3).timestamp := by
  constructor
  · rfl
  · norm_num [pevent]

/-- C2, amended: parsing a scheduler reply aborts the simulation iff
some event fails its own checks (malformed, or timestamp greater than
`now`); no ordering among the events' timestamps is checked, so a reply
whose timestamps are out of order but all at most `now` completes and
the outbound round trip continues. -/
theorem parse_and_apply_message_eq (now : ℚ) (events : List PEvent) :
    parse_and_apply_message now events
      = if events.all (event_checks now) then some now else none := by
  induction events with
  | nil => rfl
  | cons e rest ih =>
    by_cases h : event_checks now e
    · simp only [parse_and_apply_message, parse_events, if_pos h,
        List.all_cons, h, Bool.true_and]
      simpa [parse_and_apply_message] using ih
    · simp [parse_and_apply_message, parse_events, if_neg h,
        List.all_cons, Bool.eq_false_iff.mpr h]

end Batsim

namespace Batsim

/-- Workload knobs read by the checkpoint-interval selection in
`Job::from_json` (`src/batsim.cpp`, lines 2413-2431): the
`--compute_checkpointing` flag, `_MTBF`, `_SMTBF`,
`_compute_checkpointing_error`, `_num_machines` and
`_global_checkpointing_interval` (`-1` meaning unset). -/
structure WorkloadCfg where
  compute_checkpointing : Bool
  mtbf : ℝ
  smtbf : ℝ
  compute_checkpointing_error : ℝ
  num_machines : ℝ
  global_checkpointing_interval : ℝ

open Classical in
/-- Embedding of the checkpoint-interval selection of `Job::from_json`
for a fresh (non-resubmitted) delay job with checkpointing on
(`src/batsim.cpp`, lines 2413-2431).  `job_interval` is the job's
`checkpoint_interval` as read from its JSON description, `dump` its
`dump_time`, `res` its `requested_nb_res`.  If `_compute_checkpointing`
is set, Young's formula overwrites the interval — aborting (`none`)
when neither MTBF nor SMTBF is set, or when the computed interval is
not strictly positive; afterwards, if the global interval is set it
overwrites the interval with `_global_checkpointing_interval -
dump_time`. -/
noncomputable def checkpoint_interval_select (w : WorkloadCfg)
    (job_interval dump res : ℝ) : Option ℝ :=
  if w.compute_checkpointing then
    if w.mtbf = -1 ∧ w.smtbf = -1 then none
    else
      let computed :=
        if w.smtbf ≠ -1 then
          w.compute_checkpointing_error
            * Real.sqrt (dump * 2 * ((w.num_machines * w.smtbf) / res)) - dump
        else
          w.compute_checkpointing_error * Real.sqrt (dump * 2 * w.mtbf) - dump
      if 0 < computed then
        if w.global_checkpointing_interval ≠ -1 then
          some (w.global_checkpointing_interval - dump)
        else some computed
      else none
  else
    if w.global_checkpointing_interval ≠ -1 then
      some (w.global_checkpointing_interval - dump)
    else some job_interval

/-- C3, counterexample: with the global checkpointing-interval override
set to `10` and a job `dump_time` of `1` (no computed checkpointing),
the job's `checkpoint_interval` becomes `9`, not the override value
`10`: the code sets `_global_checkpointing_interval - dump_time`. -/
theorem checkpoint_interval_global_not_exact :
    checkpoint_interval_select ⟨false, -1, -1, 1, 4, 10⟩ 5 1 4 = some 9 ∧
      (9 : ℝ) ≠ 10 := by
  constructor
  · rw [checkpoint_interval_select]
    norm_num
  · norm_num

/-- C3, amended: for every fresh delay job loaded with checkpointing on,
when the global checkpointing-interval override is set, the job's
`checkpoint_interval` is set to the override value minus the job's
`dump_time` (the override takes precedence over per-job and computed
intervals, but is not used as-is); when the selection does not abort,
the resulting interval is `_global_checkpointing_interval - dump_time`. -/
theorem checkpoint_interval_global_precedence (w : WorkloadCfg)
    (job_interval dump res : ℝ)
    (hglob : w.global_checkpointing_interval ≠ -1) :
    checkpoint_interval_select w job_interval dump res = none ∨
      checkpoint_interval_select w job_interval dump res
        = some (w.global_checkpointing_interval - dump) := by
  rw [checkpoint_interval_select]
  by_cases hc : w.compute_checkpointing
  · rw [if_pos hc]
    by_cases hm : w.mtbf = -1 ∧ w.smtbf = -1
    · rw [if_pos hm]
      exact Or.inl rfl
    · rw [if_neg hm]
      by_cases hpos :
          0 < (if w.smtbf ≠ -1 then
            w.compute_checkpointing_error
              * Real.sqrt (dump * 2 * ((w.num_machines * w.smtbf) / res)) - dump
          else
            w.compute_checkpointing_error * Real.sqrt (dump * 2 * w.mtbf) - dump)
      · rw [if_pos hpos, if_pos hglob]
        exact Or.inr rfl
      · rw [if_neg hpos]
        exact Or.inl rfl
  · rw [if_neg hc, if_pos hglob]
    exact Or.inr rfl

/-- C3, witness: the precedence theorem applied to a workload with the
override set to `10` and `dump_time = 1`. -/
theorem checkpoint_interval_global_precedence_witness :
    checkpoint_interval_select ⟨false, -1, -1, 1, 4, 10⟩ 5 1 4 = none ∨
      checkpoint_interval_select ⟨false, -1, -1, 1, 4, 10⟩ 5 1 4
        = some (10 - 1) :=
  checkpoint_interval_global_precedence ⟨false, -1, -1, 1, 4, 10⟩ 5 1 4
    (by norm_num)

/-- C6: for every fresh delay job loaded with `compute_checkpointing` on
and no global override, the checkpoint interval is Young's formula
`error_factor * sqrt(2 * dump_time * M) - dump_time` with
`M = SMTBF * (nb_machines / requested_nb_res)` when SMTBF is set and
`M = MTBF` otherwise, and loading aborts on the `xbt_assert` unless it
is strictly positive. -/
theorem young_formula_interval (w : WorkloadCfg) (job_interval dump res : ℝ)
    (hc : w.compute_checkpointing = true)
    (hg : w.global_checkpointing_interval = -1) :
    (w.smtbf ≠ -1 →
      (0 < w.compute_checkpointing_error
            * Real.sqrt (2 * dump * (w.smtbf * (w.num_machines / res))) - dump →
        checkpoint_interval_select w job_interval dump res
          = some (w.compute_checkpointing_error
              * Real.sqrt (2 * dump * (w.smtbf * (w.num_machines / res)))
              - dump)) ∧
      (¬ 0 < w.compute_checkpointing_error
            * Real.sqrt (2 * dump * (w.smtbf * (w.num_machines / res))) - dump →
        checkpoint_interval_select w job_interval dump res = none)) ∧
    (w.smtbf = -1 → w.mtbf ≠ -1 →
      (0 < w.compute_checkpointing_error
            * Real.sqrt (2 * dump * w.mtbf) - dump →
        checkpoint_interval_select w job_interval dump res
          = some (w.compute_checkpointing_error
              * Real.sqrt (2 * dump * w.mtbf) - dump)) ∧
      (¬ 0 < w.compute_checkpointing_error
            * Real.sqrt (2 * dump * w.mtbf) - dump →
        checkpoint_interval_select w job_interval dump res = none)) := by
  constructor
  · intro hs
    have hm : ¬ (w.mtbf = -1 ∧ w.smtbf = -1) := fun h => hs h.2
    have harg : dump * 2 * ((w.num_machines * w.smtbf) / res)
        = 2 * dump * (w.smtbf * (w.num_machines / res)) := by
      ring
    rw [checkpoint_interval_select, if_pos hc, if_neg hm, if_pos hs, harg]
    simp only []
    constructor
    · intro hpos
      rw [if_pos hpos, if_neg (fun h => h hg)]
    · intro hneg
      rw [if_neg hneg]
  · intro hs hmt
    have hm : ¬ (w.mtbf = -1 ∧ w.smtbf = -1) := fun h => hmt h.1
    have hs2 : ¬ w.smtbf ≠ -1 := not_not_intro hs
    have harg : dump * 2 * w.mtbf = 2 * dump * w.mtbf := by
      ring
    rw [checkpoint_interval_select, if_pos hc, if_neg hm, if_neg hs2, harg]
    simp only []
    constructor
    · intro hpos
      rw [if_pos hpos, if_neg (fun h => h hg)]
    · intro hneg
      rw [if_neg hneg]

/-- C6, witness: a workload with `SMTBF = 2`, `error_factor = 1`,
`nb_machines = 2`, a job with `dump_time = 2` and
`requested_nb_res = 1`; then `M = 2 * (2 / 1) = 4`,
`sqrt(2 * 2 * 4) = sqrt 16 = 4`, and the interval is `4 - 2 = 2 > 0`. -/
theorem young_formula_interval_witness :
    checkpoint_interval_select ⟨true, -1, 2, 1, 2, -1⟩ 5 2 1
      = some (1 * Real.sqrt (2 * 2 * (2 * (2 / 1))) - 2) := by
  have hsq : Real.sqrt (2 * 2 * (2 * (2 / 1))) = 4 := by
    rw [show (2 : ℝ) * 2 * (2 * (2 / 1)) = 4 ^ 2 from by norm_num,
      Real.sqrt_sq (by norm_num : (0 : ℝ) ≤ 4)]
  exact ((young_formula_interval ⟨true, -1, 2, 1, 2, -1⟩ 5 2 1 rfl rfl).1
    (by norm_num)).1 (by rw [hsq]; norm_num)

end Batsim

namespace Batsim

/-- The profile variants relevant to the checked claims, with the data
their `data` unions carry.  `ProfileType::PARALLEL`
(`ParallelProfileData`) carries an `nb_res` field;
`ProfileType::PARALLEL_HOMOGENEOUS` (`ParallelHomogeneousProfileData`)
carries per-host `cpu` work and `com` (and no `nb_res`);
`ProfileType::DELAY` (`DelayProfileData`) carries `delay`,
`real_delay` and `original_delay`. -/
inductive ProfData where
  | delay (delay real_delay original_delay : ℚ)
  | parallel (nb_res : ℕ)
  | parallel_homogeneous (cpu com : ℚ)
  | sequence (repeated : ℕ)
  | smpi
deriving DecidableEq

/-- Embedding of `Workload::check_single_job_validity`
(`src/workload.cpp`, lines 513-533): it asserts that the job's profile
exists, and, only when the profile type is `ProfileType::PARALLEL`,
that the profile's `nb_res` equals the job's `requested_nb_res`.
`false` models an `xbt_assert` failure. -/
def check_single_job_validity (profile_in_store : Bool) (p : ProfData)
    (requested_nb_res : ℕ) : Bool :=
  profile_in_store &&
    (match p with
     | .parallel nb_res => nb_res == requested_nb_res
     | _ => true)

/-- C4, counterexample: a ParallelHomogeneous job passes
`check_single_job_validity` for two different values of
`requested_nb_res` against the same profile, so no
`nb_res = requested_nb_res` assertion is applied to
ParallelHomogeneous jobs (its profile data has no `nb_res` field; the
assert is tied to the `parallel` profile type instead). -/
theorem check_validity_ph_unchecked :
    check_single_job_validity true (.parallel_homogeneous 100 0) 1 = true ∧
      check_single_job_validity true (.parallel_homogeneous 100 0) 7 = true ∧
      check_single_job_validity true (.parallel 3) 7 = false := by
  refine ⟨rfl, rfl, rfl⟩

/-- C4, amended: `check_validity` asserts
`profile.nb_res = job.requested_nb_res` exactly for jobs whose profile
type is Parallel (`ParallelProfileData`); jobs with
ParallelHomogeneous profiles are subject only to the
profile-existence check. -/
theorem check_validity_parallel_nb_res (profile_in_store : Bool)
    (nb_res requested_nb_res : ℕ) (cpu com : ℚ) :
    check_single_job_validity profile_in_store (.parallel nb_res)
        requested_nb_res
      = (profile_in_store && (nb_res == requested_nb_res)) ∧
    check_single_job_validity profile_in_store
        (.parallel_homogeneous cpu com) requested_nb_res
      = profile_in_store := by
  constructor
  · rfl
  · simp [check_single_job_validity]

end Batsim

namespace Batsim

/-- Embedding of the per-job profile rewrite of
`Workload::write_out_batsim_checkpoint` (`src/workload.cpp`, lines
1357-1433).  A running job's `progress` is taken from
`compute_job_progress()`; a non-running job is written with
`progress = 0`. -/
def snapshot_progress (running : Bool) (progress_ratio : ℚ) : ℚ :=
  if running then progress_ratio else 0

/-- The work carried by a leaf profile: `delay` for delay profiles,
`cpu` for parallel-homogeneous profiles. -/
def profile_work : ProfData → Option ℚ
  | .delay d _ _ => some d
  | .parallel_homogeneous c _ => some c
  | _ => none

/-- The remaining work of the rewritten profile written to
`workload.json` by `write_out_batsim_checkpoint`: the code multiplies
the current profile work by `(1 - progress)` (`cpuDelay =
cpuDelay*(1-progress)` in both the delay and the parallel-homogeneous
branches); other profile types get no rewritten profile. -/
def snapshot_remaining_work (p : ProfData) (progress : ℚ) : Option ℚ :=
  match p with
  | .delay d _ _ => some (d * (1 - progress))
  | .parallel_homogeneous c _ => some (c * (1 - progress))
  | _ => none

/-- C7: for every job checkpointed while running with progress
`p ∈ [0, 1]`, the snapshot profile's remaining work is `(1 - p)` times
the profile work (delay for delay profiles, cpu for
parallel-homogeneous profiles), and a non-running job is written with
progress `0` (hence its full work). -/
theorem snapshot_rewrite_remaining (running : Bool) (ratio work com : ℚ)
    (p : ProfData) (_h0 : 0 ≤ ratio) (_h1 : ratio ≤ 1)
    (hp : p = .delay work com com ∨ p = .parallel_homogeneous work com) :
    snapshot_remaining_work p (snapshot_progress running ratio)
        = some ((1 - snapshot_progress running ratio) * work) ∧
      (running = false → snapshot_progress running ratio = 0) := by
  constructor
  · rcases hp with h | h
    · rw [h, snapshot_remaining_work]
      rw [mul_comm]
    · rw [h, snapshot_remaining_work]
      rw [mul_comm]
  · intro hr
    rw [snapshot_progress, hr]
    rfl

/-- C7, witness: a running delay job of work `10` at progress `1/2` is
written with remaining work `5`; the hypotheses `0 ≤ 1/2 ≤ 1` hold. -/
theorem snapshot_rewrite_remaining_witness :
    snapshot_remaining_work (.delay 10 3 3) (snapshot_progress true (1 / 2))
        = some ((1 - snapshot_progress true (1 / 2)) * 10) ∧
      (true = false → snapshot_progress true (1 / 2) = 0) :=
  snapshot_rewrite_remaining true (1 / 2) 10 3 (.delay 10 3 3)
    (by norm_num) (by norm_num) (Or.inl rfl)

end Batsim

namespace Batsim

/-- State of `JsonProtocolWriter`: the `_last_date` watermark and the
timestamps of the events appended so far to the outbound message
(`src/workload.cpp`). -/
structure WriterState where
  last_date : ℚ
  events : List ℚ
deriving DecidableEq

/-- Embedding of `JsonProtocolWriter::append_requested_call`
(`src/workload.cpp`, lines 1714-1735): `xbt_assert(date >= _last_date)`
then update `_last_date` and push the event.  Every other append of the
writer except `append_notify_job_fault_event` follows this same
pattern.  `none` models the assertion failure. -/
def append_requested_call (s : WriterState) (date : ℚ) : Option WriterState :=
  if s.last_date ≤ date then some ⟨date, s.events ++ [date]⟩ else none

/-- Embedding of `JsonProtocolWriter::append_notify_job_fault_event`
(`src/workload.cpp`, lines 2401-2425): it sets `_last_date = date` and
pushes the event WITHOUT the `xbt_assert(date >= _last_date)` that all
the other append methods perform. -/
def append_notify_job_fault_event (s : WriterState) (date : ℚ) : WriterState :=
  ⟨date, s.events ++ [date]⟩

/-- An append call on the protocol writer. -/
inductive WriterOp where
  | requested_call (date : ℚ)
  | notify_job_fault (date : ℚ)

/-- One writer append. -/
def writer_step (s : WriterState) : WriterOp → Option WriterState
  | .requested_call d => append_requested_call s d
  | .notify_job_fault d => some (append_notify_job_fault_event s d)

/-- A sequence of appends building one outbound message, aborting at
the first failed assertion. -/
def run_writer (s : WriterState) : List WriterOp → Option WriterState
  | [] => some s
  | op :: rest =>
    match writer_step s op with
    | none => none
    | some s2 => run_writer s2 rest

/-- C5, code bug: appending a `REQUESTED_CALL` at date `5` and then a
job-fault `NOTIFY` at date `3` triggers no assertion and yields the
outbound event timestamps `[5, 3]`, which are not non-decreasing —
`append_notify_job_fault_event` is missing the `date >= _last_date`
assertion that every other append (such as `append_requested_call`,
third conjunct) performs. -/
theorem append_job_fault_skips_assert :
    run_writer ⟨0, []⟩ [.requested_call 5, .notify_job_fault 3]
        = some ⟨3, [5, 3]⟩ ∧
      ¬ List.Pairwise (fun a b : ℚ => a ≤ b) [5, 3] ∧
      append_requested_call ⟨5, [5]⟩ 3 = none := by
  refine ⟨rfl, ?_, rfl⟩
  intro h
  have h53 := List.rel_of_pairwise_cons h (List.mem_singleton.mpr rfl)
  norm_num at h53

end Batsim

namespace Batsim

/-- Embedding of the `fixed` branch of `Workload::change_submits`
(`src/workload.cpp`, lines 157-199), iterated over the jobs in
ascending order of original submission time.  `previousSubtime` starts
at the sentinel `-1`; for each job `newSubtime` is `value1` when
`previousSubtime == -1` and `value1 + previousSubtime` otherwise, and
`previousSubtime` is updated to `newSubtime` only when `value1 != 0`.
The result is the list of new submission times in processing order
(each job's JSON `subtime` is set to the same value). -/
def fixed_submits (v : ℚ) : ℕ → ℚ → List ℚ
  | 0, _ => []
  | n + 1, prev =>
    let newSubtime := if prev = -1 then v else v + prev
    let prev2 := if v ≠ 0 then newSubtime else prev
    newSubtime :: fixed_submits v n prev2

/-- `change_submits` in `fixed(v)` mode over `n` jobs: the loop starts
with `previousSubtime = -1`. -/
def change_submits_fixed (v : ℚ) (n : ℕ) : List ℚ :=
  fixed_submits v n (-1)

example : change_submits_fixed 2 3 = [2, 4, 6] := by
  norm_num [change_submits_fixed, fixed_submits]
example : change_submits_fixed 0 3 = [0, 0, 0] := by
  norm_num [change_submits_fixed, fixed_submits]
example : change_submits_fixed (-1) 2 = [-1, -1] := by
  norm_num [change_submits_fixed, fixed_submits]

/-- Helper: once `previousSubtime` holds a non-negative value and `v` is
positive, the loop emits `prev + v, prev + 2v, ...`. -/
theorem fixed_submits_of_nonneg (v : ℚ) (hv : 0 < v) :
    ∀ (n : ℕ) (p : ℚ), 0 ≤ p →
      fixed_submits v n p
        = (List.range n).map (fun k : ℕ => p + v * ((k : ℚ) + 1)) := by
  intro n
  induction n with
  | zero => intro p _; rfl
  | succ m ih =>
    intro p hp
    have hne : p ≠ -1 := by
      intro h
      rw [h] at hp
      norm_num at hp
    rw [fixed_submits]
    rw [if_neg hne, if_pos hv.ne']
    rw [ih (v + p) (by linarith)]
    rw [List.range_succ_eq_map, List.map_cons, List.map_map]
    congr 1
    · push_cast
      ring
    · refine List.map_congr_left ?_
      intro k _
      simp only [Function.comp]
      push_cast
      ring

/-- Helper: with `v = 0` the sentinel is never replaced, so every job
gets submission time `0`. -/
theorem fixed_submits_zero :
    ∀ n : ℕ, fixed_submits 0 n (-1) = List.replicate n 0 := by
  intro n
  induction n with
  | zero => rfl
  | succ m ih =>
    rw [fixed_submits]
    split_ifs with h1 h2
    · exact absurd rfl h2
    · rw [List.replicate_succ]
      exact congrArg (List.cons 0) ih
    · exact absurd rfl h1
    · exact absurd rfl h1

/-- C8, amended: in `fixed(v)` mode with `v > 0` the jobs, in ascending
order of original submission time, get times `v, 2v, 3v, ...` (first at
`v`, each subsequent at the previous new time plus `v`); with `v = 0`
every job's time becomes `0`.  For negative `v` the claimed pattern can
fail because the sentinel `previousSubtime = -1` collides with the
computed times. -/
theorem change_submits_fixed_pattern (v : ℚ) (n : ℕ) :
    (0 < v →
      change_submits_fixed v n
        = (List.range n).map (fun k : ℕ => v * ((k : ℚ) + 1))) ∧
    (v = 0 → change_submits_fixed v n = List.replicate n 0) := by
  constructor
  · intro hv
    cases n with
    | zero => rfl
    | succ m =>
      rw [change_submits_fixed, fixed_submits]
      rw [if_pos rfl, if_pos hv.ne']
      rw [fixed_submits_of_nonneg v hv m v hv.le]
      rw [List.range_succ_eq_map, List.map_cons, List.map_map]
      congr 1
      · push_cast
        ring
      · refine List.map_congr_left ?_
        intro k _
        simp only [Function.comp]
        push_cast
        ring
  · intro hv
    rw [hv]
    exact fixed_submits_zero n

/-- C8, witness: three jobs with `v = 2` get `[2, 4, 6]`, and with
`v = 0` get `[0, 0, 0]`. -/
theorem change_submits_fixed_pattern_witness :
    change_submits_fixed 2 3
        = (List.range 3).map (fun k : ℕ => 2 * ((k : ℚ) + 1)) ∧
      change_submits_fixed 0 3 = List.replicate 3 0 :=
  ⟨(change_submits_fixed_pattern 2 3).1 (by norm_num),
   (change_submits_fixed_pattern 0 3).2 rfl⟩

/-- C8, counterexample: with `v = -1` (non-zero) and two jobs the code
produces `[-1, -1]` — the second job's time equals the first, not the
previous new time plus `v` (which would be `-2`): the sentinel
`previousSubtime = -1` is never considered set. -/
theorem change_submits_fixed_neg_one :
    change_submits_fixed (-1) 2 = [-1, -1] ∧
      ¬ ((-1 : ℚ) = -1 + -1) := by
  constructor
  · norm_num [change_submits_fixed, fixed_submits]
  · norm_num

end Batsim

namespace Batsim

/-- A job as seen by the shuffle branch of `Workload::change_submits`:
its `submission_time`, the `subtime` field of its JSON description, and
its job number (used only for sorting ties).  The two copied vectors the
code works on are deep copies rebuilt by `Job::from_json`, so the loop
reads from an independent snapshot. -/
structure SJob where
  subtime : ℚ
  json_subtime : ℚ
  number : ℕ
deriving DecidableEq

/-- Embedding of the shuffle loop of `Workload::change_submits`
(`src/workload.cpp`, lines 208-249): for each position `i`,
`newJobs[i]` receives the submission time of `oldJobs[indices[i]]`,
and its JSON `subtime` is set to the same value.  `indices` is the
result of `std::shuffle` on `iota(0, n)`, i.e. a permutation of
`[0, n)`. -/
def apply_shuffle (jobs : List SJob) (indices : List (Fin jobs.length)) :
    List SJob :=
  List.zipWith
    (fun idx j =>
      { j with subtime := (jobs.get idx).subtime,
               json_subtime := (jobs.get idx).subtime })
    indices jobs

/-- Helper: mapping a projection that only depends on the left input
over a `zipWith` of lists of compatible lengths. -/
theorem map_zipWith_left {α β γ δ : Type} (f : α → β → γ) (g : γ → δ)
    (h : α → δ) (hfg : ∀ a b, g (f a b) = h a) :
    ∀ (l1 : List α) (l2 : List β), l1.length ≤ l2.length →
      (List.zipWith f l1 l2).map g = l1.map h := by
  intro l1
  induction l1 with
  | nil => intro l2 _; rfl
  | cons a l1 ih =>
    intro l2 hl
    cases l2 with
    | nil => simp at hl
    | cons b l2 =>
      rw [List.zipWith_cons_cons, List.map_cons, List.map_cons, hfg]
      have hl2 : l1.length ≤ l2.length := by
        simpa using hl
      rw [ih l2 hl2]

/-- Helper: reading a list at all indices of `finRange` in permuted
order is a permutation of the list of its projections. -/
theorem map_get_perm (jobs : List SJob) (g : SJob → ℚ)
    (indices : List (Fin jobs.length))
    (hperm : indices.Perm (List.finRange jobs.length)) :
    (indices.map (fun idx => g (jobs.get idx))).Perm (jobs.map g) := by
  have h1 := hperm.map (fun idx => g (jobs.get idx))
  have h2 : (List.finRange jobs.length).map (fun idx => g (jobs.get idx))
      = jobs.map g := by
    rw [show (fun idx : Fin jobs.length => g (jobs.get idx))
        = g ∘ jobs.get from rfl]
    rw [← List.map_map, List.finRange_map_get]
  rw [h2] at h1
  exact h1

/-- C9: the shuffle branch of `change_submits` preserves the multiset of
submission times: the new jobs' submission times (and their JSON
`subtime` fields, which the loop keeps in sync) are a permutation of
the old ones; only which job receives which time changes. -/
theorem shuffle_preserves_subtimes (jobs : List SJob)
    (indices : List (Fin jobs.length))
    (hperm : indices.Perm (List.finRange jobs.length))
    (hsync : ∀ j ∈ jobs, j.json_subtime = j.subtime) :
    ((apply_shuffle jobs indices).map (fun j => j.subtime)).Perm
        (jobs.map (fun j => j.subtime)) ∧
      ((apply_shuffle jobs indices).map (fun j => j.json_subtime)).Perm
        (jobs.map (fun j => j.json_subtime)) := by
  have hlen : indices.length ≤ jobs.length := by
    rw [hperm.length_eq, List.length_finRange]
  have h1 : (apply_shuffle jobs indices).map (fun j => j.subtime)
      = indices.map (fun idx => (jobs.get idx).subtime) :=
    map_zipWith_left
      (fun idx j =>
        { j with subtime := (jobs.get idx).subtime,
                 json_subtime := (jobs.get idx).subtime })
      (fun j => j.subtime)
      (fun idx => (jobs.get idx).subtime)
      (fun _ _ => rfl) indices jobs hlen
  have h2 : (apply_shuffle jobs indices).map (fun j => j.json_subtime)
      = indices.map (fun idx => (jobs.get idx).subtime) :=
    map_zipWith_left
      (fun idx j =>
        { j with subtime := (jobs.get idx).subtime,
                 json_subtime := (jobs.get idx).subtime })
      (fun j => j.json_subtime)
      (fun idx => (jobs.get idx).subtime)
      (fun _ _ => rfl) indices jobs hlen
  have h3 := map_get_perm jobs (fun j => j.subtime) indices hperm
  constructor
  · rw [h1]
    exact h3
  · rw [h2, List.map_congr_left hsync]
    exact h3

/-- The two-job workload used to exercise the shuffle loop. -/
def shuffle_demo_jobs : List SJob :=
  [⟨0, 0, 0⟩, ⟨10, 10, 1⟩]

/-- The transposition of `finRange 2`, a possible `std::shuffle` output. -/
def shuffle_demo_indices : List (Fin shuffle_demo_jobs.length) :=
  [⟨1, by decide⟩, ⟨0, by decide⟩]

/-- C9, witness: two jobs with times `{0, 10}` and the transposition
`[1, 0]` of `finRange 2`; both multiset-preservation conclusions hold. -/
theorem shuffle_preserves_subtimes_witness :
    ((apply_shuffle shuffle_demo_jobs shuffle_demo_indices).map
          (fun j => j.subtime)).Perm
        (shuffle_demo_jobs.map (fun j => j.subtime)) ∧
      ((apply_shuffle shuffle_demo_jobs shuffle_demo_indices).map
          (fun j => j.json_subtime)).Perm
        (shuffle_demo_jobs.map (fun j => j.json_subtime)) := by
  refine shuffle_preserves_subtimes shuffle_demo_jobs shuffle_demo_indices
    ?_ ?_
  · show (shuffle_demo_indices).Perm (List.finRange 2)
    rw [show List.finRange 2
        = [(⟨0, by decide⟩ : Fin 2), ⟨1, by decide⟩] from rfl]
    unfold shuffle_demo_indices
    exact List.Perm.swap _ _ []
  · intro j hj
    rcases List.mem_cons.mp hj with h | h
    · rw [h]
    · rw [List.mem_singleton.mp h]

end Batsim

namespace Batsim

/-- The `Jobs` container (`src/batsim.cpp`): `_jobs` maps a job id to
its job (here: ids and payloads are naturals), and `_jobs_met` records
every id ever inserted.  `add_job` inserts into both; `delete_job`
erases only from `_jobs`. -/
structure JobsStore where
  jobs_map : List (ℕ × ℕ)
  jobs_met : List ℕ
deriving DecidableEq

/-- Embedding of `Jobs::exists` (`src/batsim.cpp`, lines 1928-1932): it
looks the id up in `_jobs_met`, not in `_jobs`. -/
def exists_job (s : JobsStore) (id : ℕ) : Bool :=
  s.jobs_met.contains id

/-- Embedding of `Jobs::at` / `Jobs::operator[]` (`src/batsim.cpp`,
lines 1878-1902): look the id up in `_jobs`; `none` models the
`xbt_assert` failure when the job is not there. -/
def at_job (s : JobsStore) (id : ℕ) : Option ℕ :=
  (s.jobs_map.find? (fun p => p.1 == id)).map (fun p => p.2)

/-- Embedding of `Jobs::add_job` (`src/batsim.cpp`, lines 1904-1912):
assert `!exists(id)`, then insert into `_jobs` and `_jobs_met`. -/
def add_job (s : JobsStore) (id v : ℕ) : Option JobsStore :=
  if exists_job s id then none
  else some ⟨(id, v) :: s.jobs_map, id :: s.jobs_met⟩

/-- Embedding of `Jobs::delete_job` (`src/batsim.cpp`, lines
1914-1926): assert `exists(id)`, read the job from `_jobs` (its
`operator[]` asserts presence there), then erase the id from `_jobs`
only; `_jobs_met` is left untouched.  The `garbage_collect_profiles`
flag only triggers a removal in the profile store, which does not
affect job lookups. -/
def delete_job (s : JobsStore) (id : ℕ) (_garbage_collect_profiles : Bool) :
    Option JobsStore :=
  if exists_job s id then
    match at_job s id with
    | some _ => some ⟨s.jobs_map.filter (fun p => !(p.1 == id)), s.jobs_met⟩
    | none => none
  else none

/-- C10: for every store and id currently stored, `delete_job` succeeds
and afterwards `at`/`operator[]` fail on that id while `exists` still
returns `true`: `exists` reports whether the id was ever added, not
current membership. -/
theorem delete_job_at_fails_exists_holds (s : JobsStore) (id v : ℕ)
    (gc : Bool) (hat : at_job s id = some v) (hex : exists_job s id = true) :
    ∃ s2, delete_job s id gc = some s2 ∧
      at_job s2 id = none ∧ exists_job s2 id = true := by
  refine ⟨⟨s.jobs_map.filter (fun p => !(p.1 == id)), s.jobs_met⟩, ?_, ?_, ?_⟩
  · rw [delete_job, if_pos hex, hat]
  · rw [at_job]
    have hnone : (s.jobs_map.filter (fun p => !(p.1 == id))).find?
        (fun p => p.1 == id) = none := by
      rw [List.find?_eq_none]
      intro p hp
      have := List.of_mem_filter hp
      simpa using this
    rw [hnone]
    rfl
  · exact hex

/-- C10, witness: insert job `1 ↦ 42` into the empty store via
`add_job`, then delete it; `at` fails and `exists` still holds. -/
theorem delete_job_at_fails_exists_holds_witness :
    ∃ s2, delete_job ⟨[(1, 42)], [1]⟩ 1 true = some s2 ∧
      at_job s2 1 = none ∧ exists_job s2 1 = true :=
  delete_job_at_fails_exists_holds ⟨[(1, 42)], [1]⟩ 1 42 true rfl rfl

/-- The store built by `add_job` from the empty store is the concrete
store used by the witness: `add_job` records the id in both maps. -/
theorem add_job_records_both :
    add_job ⟨[], []⟩ 1 42 = some ⟨[(1, 42)], [1]⟩ := rfl

end Batsim
